import Mathlib

/-!
Shallow embedding of `src/server.js` (chess-tac-toe-server).

The server keeps an in-memory registry `rooms : roomCode -> Room` and four
socket event handlers (`create-room`, `join-room`, `action`, `disconnect`).
JavaScript objects used as string-keyed maps are embedded as insertion-ordered
association lists with unique keys (`obj[k] = v` updates in place or appends,
`delete obj[k]` removes the entry, `Object.keys` iterates in insertion order).

Message delivery: `socket.emit` / `io.to(id).emit` is a direct delivery to one
connection id; `io.to(code).emit` delivers to every connection currently joined
to the transport channel named `code`; `socket.to(code).emit` delivers to that
channel minus the sender.  Channel membership (socket.io rooms) is tracked
explicitly in the state: `socket.join(code)` adds the socket to the channel and
a disconnect removes the socket from every channel.
-/

namespace ChessTacToe

set_option autoImplicit false

/-- Connection (socket) identifier, opaque to the server. -/
abbrev ConnId := String

/-- The two role values used by the server (`"white"` / `"black"`). -/
inductive Role where
  | white
  | black
deriving DecidableEq, Repr

/-- Insertion-ordered association-list lookup (`obj[k]`). -/
def lookupA {α : Type} (k : String) : List (String × α) → Option α
  | [] => none
  | (k', v) :: rest => if k' = k then some v else lookupA k rest

/-- Insertion-ordered association-list update (`obj[k] = v`): updates the
existing entry in place, or appends a new entry at the end. -/
def insertA {α : Type} (k : String) (v : α) : List (String × α) → List (String × α)
  | [] => [(k, v)]
  | (k', v') :: rest => if k' = k then (k, v) :: rest else (k', v') :: insertA k v rest

/-- Association-list deletion (`delete obj[k]`). -/
def eraseA {α : Type} (k : String) : List (String × α) → List (String × α)
  | [] => []
  | (k', v') :: rest => if k' = k then rest else (k', v') :: eraseA k rest

/-- A role mapping `{ [socketId]: "white" | "black" }`. -/
abbrev Roles := List (String × Role)

/-- One room: `rooms[code] = { hostId, players: [socketId...], roles }`
(`src/server.js` line 15). -/
structure Room where
  hostId : ConnId
  players : List ConnId
  roles : Roles
deriving DecidableEq, Repr

/-- The room registry `rooms` (`src/server.js` line 16). -/
abbrev RoomsT := List (String × Room)

/-- Transport channel membership: socket.io room name -> joined sockets. -/
abbrev Channels := List (String × List ConnId)

/-- Full server state: the registry plus the transport's channel membership. -/
structure ServerState where
  rooms : RoomsT
  channels : Channels
deriving DecidableEq, Repr

/-- The state at process start: no rooms, no channels. -/
def initState : ServerState := ⟨[], []⟩

/-- Outbound messages the server emits (section 6 message catalogue). -/
inductive Msg where
  | roomCreated (roomCode : String) (role : Role)
  | roomJoined (roomCode : String) (role : Role)
  | roomError (message : String)
  | opponentJoined (roomCode : String)
  | roomReady (roomCode : String) (roles : Roles)
  | rolesUpdated (roomCode : String) (roles : Roles)
  | actionMsg (type : Option String) (data : String)
  | opponentLeft (roomCode : String)
deriving DecidableEq, Repr

/-- A delivery of one message to one connection. -/
abbrev Delivery := ConnId × Msg

/-- An `action` event payload `{ type?, ... }`: an optional discriminating
`type` tag plus opaque further content. -/
structure ActionPayload where
  type : Option String
  data : String
deriving DecidableEq, Repr

/-- A scalar JavaScript value, as can arrive as an event payload. -/
inductive JsValue where
  | undef
  | null
  | bool (b : Bool)
  | num (n : Int)
  | str (s : String)
deriving DecidableEq, Repr

/-- JavaScript truthiness of a scalar. -/
def jsTruthy : JsValue → Bool
  | .undef => false
  | .null => false
  | .bool b => b
  | .num n => n != 0
  | .str s => s ≠ ""

/-- JavaScript `String(v)` conversion for a scalar. -/
def jsToString : JsValue → String
  | .undef => "undefined"
  | .null => "null"
  | .bool b => if b then "true" else "false"
  | .num n => toString n
  | .str s => s

/-- Whitespace characters as stripped by JavaScript trim (the ASCII ones,
which cover the payloads considered here). -/
def isJsWhitespace (c : Char) : Bool :=
  c = ' ' || c = '\t' || c = '\n' || c = '\r'

/-- JavaScript `s.trim()`: drop whitespace from both ends, over the character
list of the string. -/
def jsTrim (s : String) : String :=
  String.mk (((s.data.dropWhile isJsWhitespace).reverse.dropWhile isJsWhitespace).reverse)

/-- JavaScript `s.toUpperCase()` (ASCII letters, which covers the codes the server makes). -/
def jsUpper (s : String) : String := String.mk (s.data.map Char.toUpper)

/-- The normalization `String(code || "").trim().toUpperCase()` applied to
every incoming room code (`src/server.js` lines 64 and 92). -/
def jsCoerceCode (v : JsValue) : String :=
  jsUpper (jsTrim (if jsTruthy v then jsToString v else ""))

/-- Members of the transport channel `code`. -/
def channelMembers (st : ServerState) (code : String) : List ConnId :=
  (lookupA code st.channels).getD []

/-- Transport `socket.join(code)`: add the socket to the channel (idempotent). -/
def channelJoin (code : String) (sid : ConnId) (chs : Channels) : Channels :=
  match lookupA code chs with
  | none => insertA code [sid] chs
  | some ms => insertA code (if sid ∈ ms then ms else ms ++ [sid]) chs

/-- Broadcast `io.to(code).emit(m)`: deliver `m` to every member of channel `code`. -/
def broadcastTo (st : ServerState) (code : String) (m : Msg) : List Delivery :=
  (channelMembers st code).map (fun p => (p, m))

/-- Function `getRoomOfSocket` (`src/server.js` lines 22-27): first room, in registry
insertion order, whose `players` contains the socket; the source returns the
code and then indexes `rooms[code]`, so we return the pair directly. -/
def getRoomOfSocket (rooms : RoomsT) (sid : ConnId) : Option (String × Room) :=
  match rooms with
  | [] => none
  | (code, room) :: rest =>
    if sid ∈ room.players then some (code, room) else getRoomOfSocket rest sid

/-- The exchange of the two role values: white becomes black and vice versa. -/
def flipRole : Role → Role
  | .white => .black
  | .black => .white

/-- One role flip `room.roles[a] = room.roles[a] === "white" ? "black" : "white"`
(`src/server.js` lines 37-38). -/
def flipAt (roles : Roles) (a : ConnId) : Roles :=
  insertA a (if lookupA a roles = some Role.white then Role.black else Role.white) roles

/-- Function `swapRoomRoles` (`src/server.js` lines 29-41): `null` when the room is
missing or does not have exactly 2 player entries; otherwise flips both
players' role entries in order and returns the updated registry and roles. -/
def swapRoomRoles (rooms : RoomsT) (code : String) : Option (RoomsT × Roles) :=
  match lookupA code rooms with
  | none => none
  | some room =>
    match room.players with
    | [a, b] =>
      let roles1 := flipAt room.roles a
      let roles2 := flipAt roles1 b
      some (insertA code { room with roles := roles2 } rooms, roles2)
    | _ => none

/-- The `create-room` handler body (`src/server.js` lines 46-61) applied with
the fresh code the retry loop produced: inserts the new room, joins the
creator to the channel, and emits `room-created` to the creator. -/
def handleCreate (st : ServerState) (sender : ConnId) (code : String) :
    ServerState × List Delivery :=
  let room : Room := ⟨sender, [sender], [(sender, Role.white)]⟩
  (⟨insertA code room st.rooms, channelJoin code sender st.channels⟩,
   [(sender, Msg.roomCreated code Role.white)])

/-- The `join-room` handler (`src/server.js` lines 63-89). -/
def handleJoin (st : ServerState) (sender : ConnId) (codeRaw : JsValue) :
    ServerState × List Delivery :=
  let code := jsCoerceCode codeRaw
  match lookupA code st.rooms with
  | none => (st, [(sender, Msg.roomError "Room unavailable")])
  | some room =>
    if 2 ≤ room.players.length then
      (st, [(sender, Msg.roomError "Room unavailable")])
    else
      let room' : Room := { room with
        players := room.players ++ [sender],
        roles := insertA sender Role.black room.roles }
      let st' : ServerState :=
        ⟨insertA code room' st.rooms, channelJoin code sender st.channels⟩
      (st',
       (sender, Msg.roomJoined code Role.black)
         :: (room.hostId, Msg.opponentJoined code)
         :: broadcastTo st' code (Msg.roomReady code room'.roles))

/-- The `action` handler (`src/server.js` lines 91-116). -/
def handleAction (st : ServerState) (sender : ConnId) (rcRaw : JsValue)
    (payload : ActionPayload) : ServerState × List Delivery :=
  let roomCode := jsCoerceCode rcRaw
  match lookupA roomCode st.rooms with
  | none => (st, [])
  | some room =>
    if sender ∈ room.players then
      if payload.type = some "swap-sides" then
        match swapRoomRoles st.rooms roomCode with
        | none => (st, [(sender, Msg.roomError "Need 2 players to swap sides")])
        | some (rooms', roles) =>
          let st' : ServerState := ⟨rooms', st.channels⟩
          (st',
           broadcastTo st' roomCode (Msg.rolesUpdated roomCode roles)
             ++ broadcastTo st' roomCode (Msg.actionMsg (some "restart") ""))
      else
        (st, broadcastTo st roomCode (Msg.actionMsg payload.type payload.data))
    else (st, [])

/-- The `disconnect` handler (`src/server.js` lines 118-142), together with the
transport removing the socket from every channel. -/
def handleDisconnect (st : ServerState) (sender : ConnId) :
    ServerState × List Delivery :=
  let channels' := st.channels.map (fun cm => (cm.1, cm.2.filter (· ≠ sender)))
  match getRoomOfSocket st.rooms sender with
  | none => (⟨st.rooms, channels'⟩, [])
  | some (code, room) =>
    let players' := room.players.filter (· ≠ sender)
    let roles' := eraseA sender room.roles
    let msgs := ((lookupA code channels').getD []).map
      (fun p => (p, Msg.opponentLeft code))
    match players' with
    | [] => (⟨eraseA code st.rooms, channels'⟩, msgs)
    | p0 :: _ =>
      let room' : Room :=
        ⟨if room.hostId = sender then p0 else room.hostId, players', roles'⟩
      (⟨insertA code room' st.rooms, channels'⟩, msgs)

/-- One inbound event.  A `create` event carries the code the `makeCode` retry
loop (`src/server.js` lines 47-49) produced, which is always fresh. -/
inductive Event where
  | create (sender : ConnId) (code : String)
  | join (sender : ConnId) (payload : JsValue)
  | act (sender : ConnId) (roomCode : JsValue) (payload : ActionPayload)
  | disc (sender : ConnId)
deriving DecidableEq, Repr

/-- Dispatch one event.  The freshness guard on `create` reflects that the
retry loop never hands the handler a code already in use; on a (never
occurring) stale code the event does nothing. -/
def step (st : ServerState) : Event → ServerState × List Delivery
  | .create s code =>
    if lookupA code st.rooms = none then handleCreate st s code else (st, [])
  | .join s v => handleJoin st s v
  | .act s rc p => handleAction st s rc p
  | .disc s => handleDisconnect st s

/-- Run a sequence of events from a state, keeping only the final state. -/
def run (st : ServerState) : List Event → ServerState
  | [] => st
  | e :: es => run (step st e).1 es

/-- Number of entries of `roles` holding the role `r`. -/
def countRole (r : Role) (roles : Roles) : Nat :=
  (roles.filter (fun p => p.2 = r)).length

/-- The 36 characters a base-36 fractional digit printed by
`Number.prototype.toString(36)` can be. -/
def base36Digits : List Char := "0123456789abcdefghijklmnopqrstuvwxyz".data

/-- The code generator `makeCode` (`src/server.js` lines 18-20):
`Math.random().toString(36).slice(2, 2 + len).toUpperCase()`.
The random value lies in `[0, 1)`, so `toString(36)` prints `"0." ++ digits`
for its list of base-36 fractional digits (just `"0"` when the list is empty,
e.g. for the value 0).  Either way `slice(2, 2 + len)` keeps the first `len`
digit characters, which `toUpperCase` then maps over.  The random source is
therefore embedded as the digit list the chosen value prints as. -/
def makeCode (frac : List Char) (len : Nat) : String :=
  String.mk ((frac.take len).map Char.toUpper)

/-- A run refuting the roles invariant: `a` creates room `ABCD`, `b` joins,
`a` disconnects (leaving `b` with role black), and `c` joins. -/
def twoBlackEvents : List Event :=
  [.create "a" "ABCD", .join "b" (.str "ABCD"), .disc "a", .join "c" (.str "ABCD")]

/-- The registry state `twoBlackEvents` runs to. -/
def twoBlackState : ServerState := run initState twoBlackEvents

/-- A room whose only remaining player holds black: `a` creates `WXYZ`,
`b` joins (black), `a` disconnects. -/
def soloBlackState : ServerState :=
  run initState [.create "a" "WXYZ", .join "b" (.str "WXYZ"), .disc "a"]

/-- A fresh two-player demo room: host `h` (white) and joiner `g` (black). -/
def demoPair : ServerState :=
  run initState [.create "h" "ROOM", .join "g" (.str "ROOM")]

/-- A fresh one-player demo room: host `h` alone. -/
def demoSolo : ServerState := run initState [.create "h" "SOLO"]

/-! Association-list lemmas shared by the claim proofs. -/

theorem lookupA_eq_none_of_not_mem {α : Type} {k : String} {l : List (String × α)}
    (h : k ∉ l.map Prod.fst) : lookupA k l = none := by
  induction l with
  | nil => rfl
  | cons p rest ih =>
    obtain ⟨k', v⟩ := p
    simp only [List.map_cons, List.mem_cons, not_or] at h
    simp [lookupA, Ne.symm h.1, ih h.2]

theorem lookupA_insertA_self {α : Type} (k : String) (v : α) (l : List (String × α)) :
    lookupA k (insertA k v l) = some v := by
  induction l with
  | nil => simp [insertA, lookupA]
  | cons p rest ih =>
    obtain ⟨k', v'⟩ := p
    by_cases h : k' = k
    · simp [insertA, lookupA, h]
    · simp [insertA, lookupA, h, ih]

theorem lookupA_insertA_ne {α : Type} {k k' : String} (h : k' ≠ k) (v : α)
    (l : List (String × α)) : lookupA k (insertA k' v l) = lookupA k l := by
  induction l with
  | nil => simp [insertA, lookupA, h]
  | cons p rest ih =>
    obtain ⟨k'', v''⟩ := p
    by_cases h2 : k'' = k'
    · subst h2
      simp [insertA, lookupA, h]
    · by_cases h3 : k'' = k
      · simp [insertA, lookupA, h2, h3, Ne.symm h]
      · simp [insertA, lookupA, h2, h3, ih]

theorem insertA_insertA_same {α : Type} (k : String) (v v' : α)
    (l : List (String × α)) : insertA k v (insertA k v' l) = insertA k v l := by
  induction l with
  | nil => simp [insertA]
  | cons p rest ih =>
    obtain ⟨k'', v''⟩ := p
    by_cases h : k'' = k
    · simp [insertA, h]
    · simp [insertA, h, ih]

theorem mem_keys_insertA_self {α : Type} (k : String) (v : α)
    (l : List (String × α)) : k ∈ (insertA k v l).map Prod.fst := by
  induction l with
  | nil => simp [insertA]
  | cons p rest ih =>
    obtain ⟨k'', v''⟩ := p
    by_cases h : k'' = k
    · simp [insertA, h]
    · simp only [insertA, if_neg h, List.map_cons, List.mem_cons]
      right
      exact ih

theorem insertA_comm_of_mem {α : Type} {k k' : String} {l : List (String × α)}
    (h : k ≠ k') (hk : k ∈ l.map Prod.fst) (v v' : α) :
    insertA k v (insertA k' v' l) = insertA k' v' (insertA k v l) := by
  induction l with
  | nil => simp at hk
  | cons p rest ih =>
    obtain ⟨k'', v''⟩ := p
    by_cases h2 : k'' = k
    · subst h2
      simp [insertA, h, Ne.symm h]
    · by_cases h3 : k'' = k'
      · subst h3
        simp [insertA, h2, Ne.symm h]
      · have hk' : k ∈ rest.map Prod.fst := by
          simp only [List.map_cons, List.mem_cons] at hk
          rcases hk with h4 | h4
          · exact absurd h4.symm h2
          · exact h4
        simp [insertA, h2, h3, ih hk']

theorem insertA_of_lookupA {α : Type} {k : String} {v : α} {l : List (String × α)}
    (h : lookupA k l = some v) : insertA k v l = l := by
  induction l with
  | nil => simp [lookupA] at h
  | cons p rest ih =>
    obtain ⟨k'', v''⟩ := p
    by_cases h2 : k'' = k
    · simp [lookupA, h2] at h
      simp [insertA, h2, h]
    · simp [lookupA, h2] at h
      simp [insertA, h2, ih h]

theorem lookupA_eraseA_self {α : Type} {k : String} {l : List (String × α)}
    (h : (l.map Prod.fst).Nodup) : lookupA k (eraseA k l) = none := by
  induction l with
  | nil => rfl
  | cons p rest ih =>
    obtain ⟨k'', v''⟩ := p
    simp only [List.map_cons, List.nodup_cons] at h
    by_cases h2 : k'' = k
    · subst h2
      simp only [eraseA, if_pos rfl]
      exact lookupA_eq_none_of_not_mem h.1
    · simp [eraseA, lookupA, h2, ih h.2]

theorem lookupA_map_value {α β : Type} (f : α → β) (k : String)
    (l : List (String × α)) :
    lookupA k (l.map (fun p => (p.1, f p.2))) = (lookupA k l).map f := by
  induction l with
  | nil => rfl
  | cons p rest ih =>
    obtain ⟨k'', v''⟩ := p
    by_cases h2 : k'' = k
    · simp [lookupA, h2]
    · simp [lookupA, h2, ih]

theorem flipRole_flipRole (r : Role) : flipRole (flipRole r) = r := by
  cases r <;> rfl

theorem flipAt_eq_insert (roles : Roles) (a : ConnId) (ra : Role)
    (h : lookupA a roles = some ra) :
    flipAt roles a = insertA a (flipRole ra) roles := by
  unfold flipAt
  cases ra <;> simp [h, flipRole]

/-- Flipping both (distinct, present) keys twice gives back the original
association list. -/
theorem double_swap_roles (roles : Roles) (a b : ConnId) (ra rb : Role)
    (hab : a ≠ b) (hra : lookupA a roles = some ra)
    (hrb : lookupA b roles = some rb) :
    flipAt (flipAt (flipAt (flipAt roles a) b) a) b = roles := by
  have e1 : flipAt roles a = insertA a (flipRole ra) roles :=
    flipAt_eq_insert _ _ _ hra
  have l1b : lookupA b (flipAt roles a) = some rb := by
    rw [e1, lookupA_insertA_ne hab]
    exact hrb
  have e2 : flipAt (flipAt roles a) b = insertA b (flipRole rb) (flipAt roles a) :=
    flipAt_eq_insert _ _ _ l1b
  have l2a : lookupA a (flipAt (flipAt roles a) b) = some (flipRole ra) := by
    rw [e2, lookupA_insertA_ne (Ne.symm hab), e1]
    exact lookupA_insertA_self _ _ _
  have e3 : flipAt (flipAt (flipAt roles a) b) a =
      insertA a ra (flipAt (flipAt roles a) b) := by
    rw [flipAt_eq_insert _ _ _ l2a, flipRole_flipRole]
  have l3b : lookupA b (flipAt (flipAt (flipAt roles a) b) a) = some (flipRole rb) := by
    rw [e3, lookupA_insertA_ne hab, e2]
    exact lookupA_insertA_self _ _ _
  have e4 : flipAt (flipAt (flipAt (flipAt roles a) b) a) b =
      insertA b rb (flipAt (flipAt (flipAt roles a) b) a) := by
    rw [flipAt_eq_insert _ _ _ l3b, flipRole_flipRole]
  rw [e4, e3, e2, e1]
  rw [insertA_comm_of_mem hab (mem_keys_insertA_self a (flipRole ra) roles) ra
    (flipRole rb)]
  rw [insertA_insertA_same, insertA_insertA_same, insertA_of_lookupA hra,
    insertA_of_lookupA hrb]

theorem lookupA_filter_channels (sender : ConnId) (code : String) (chs : Channels) :
    (lookupA code (chs.map (fun cm => (cm.1, cm.2.filter (· ≠ sender))))).getD []
      = ((lookupA code chs).getD []).filter (· ≠ sender) := by
  induction chs with
  | nil => rfl
  | cons p rest ih =>
    obtain ⟨k, v⟩ := p
    by_cases h : k = code
    · simp [lookupA, h]
    · simpa [lookupA, h] using ih

/-! Claim theorems. -/

/-- C1: the claimed registry invariant fails on the code.  Running the event
sequence `twoBlackEvents` (`a` creates room `ABCD`, `b` joins, `a`
disconnects, `c` joins — each step a perfectly ordinary client action) reaches
a registry whose room has 2 players both holding black and nobody holding
white, because the join handler assigns black to every joiner unconditionally
(`src/server.js` line 72) even when the remaining player already holds black.
The roles keys still match the players, but "exactly one player holds each of
the two role values" is violated. -/
theorem c1_roles_invariant_fails_on_twoBlackEvents :
    lookupA "ABCD" twoBlackState.rooms =
      some ⟨"b", ["b", "c"], [("b", Role.black), ("c", Role.black)]⟩ ∧
    countRole Role.white [("b", Role.black), ("c", Role.black)] = 0 ∧
    countRole Role.black [("b", Role.black), ("c", Role.black)] = 2 := by
  decide

/-- C3: the claim fails on the code.  Joining room `WXYZ`, whose single
remaining player `b` holds black (host left after a normal create/join), does
succeed — the padded lowercase code `"  wxyz "` is trimmed and upcased, the
joiner `c` is appended, assigned black, and told `room-joined` with black — but
the resulting roles mapping holds black twice and white not at all, instead of
both role values exactly once as claimed. -/
theorem c3_join_yields_two_blacks :
    handleJoin soloBlackState "c" (JsValue.str "  wxyz ") =
      (⟨[("WXYZ", ⟨"b", ["b", "c"], [("b", Role.black), ("c", Role.black)]⟩)],
        [("WXYZ", ["b", "c"])]⟩,
       [("c", Msg.roomJoined "WXYZ" Role.black),
        ("b", Msg.opponentJoined "WXYZ"),
        ("b", Msg.roomReady "WXYZ" [("b", Role.black), ("c", Role.black)]),
        ("c", Msg.roomReady "WXYZ" [("b", Role.black), ("c", Role.black)])]) ∧
    lookupA "WXYZ" soloBlackState.rooms = some ⟨"b", ["b"], [("b", Role.black)]⟩ ∧
    countRole Role.black [("b", Role.black), ("c", Role.black)] = 2 ∧
    countRole Role.white [("b", Role.black), ("c", Role.black)] = 0 := by
  decide

/-- C9 counterexample: the generated code is not always 4 characters long.
`Math.random()` can return 0.5, whose base-36 printing is `"0.i"` (fractional
digit list `['i']`), and the resulting code is `"I"` of length 1. -/
theorem c9_fixed_length_fails :
    'i' ∈ base36Digits ∧ makeCode ['i'] 4 = "I" ∧ (makeCode ['i'] 4).length ≠ 4 := by
  decide

/-- C9 amended: every code the generator produces is an uppercase-alphanumeric
string of length at most 4, and of length exactly 4 when the random value's
base-36 fractional expansion has at least 4 digits. -/
theorem c9_code_uppercase_alnum_le_four (frac : List Char)
    (h : ∀ c ∈ frac, c ∈ base36Digits) :
    (makeCode frac 4).length ≤ 4 ∧
    (∀ c ∈ (makeCode frac 4).data, ('A' ≤ c ∧ c ≤ 'Z') ∨ ('0' ≤ c ∧ c ≤ '9')) ∧
    (4 ≤ frac.length → (makeCode frac 4).length = 4) := by
  have hlen : (makeCode frac 4).length = ((frac.take 4).map Char.toUpper).length := rfl
  refine ⟨?_, ?_, ?_⟩
  · rw [hlen, List.length_map, List.length_take]
    exact min_le_left _ _
  · intro c hc
    have hc' : c ∈ (frac.take 4).map Char.toUpper := hc
    obtain ⟨c', hc'', rfl⟩ := List.mem_map.mp hc'
    have hmem : c' ∈ frac := List.mem_of_mem_take hc''
    have key : ∀ x ∈ base36Digits,
        ('A' ≤ x.toUpper ∧ x.toUpper ≤ 'Z') ∨ ('0' ≤ x.toUpper ∧ x.toUpper ≤ '9') := by
      decide
    exact key c' (h c' hmem)
  · intro h4
    rw [hlen, List.length_map, List.length_take]
    exact Nat.min_eq_left h4

/-- C9 witness for the amended theorem: a 5-digit expansion yields a
4-character code. -/
theorem c9_code_uppercase_alnum_le_four_witness :
    (makeCode ['a', 'b', '3', 'k', 'z'] 4).length = 4 :=
  (c9_code_uppercase_alnum_le_four ['a', 'b', '3', 'k', 'z'] (by decide)).2.2 (by decide)

/-- C8: a create-room event, with the fresh code produced by the generator's
retry loop, registers a room whose players list is exactly the creator, whose
roles mapping gives the creator white, whose host is the creator; the creator
receives `room-created` with the code and white, and no other room changes. -/
theorem c8_create_room (st : ServerState) (sender : ConnId) (code : String)
    (hfresh : lookupA code st.rooms = none) :
    lookupA code (step st (.create sender code)).1.rooms =
      some ⟨sender, [sender], [(sender, Role.white)]⟩ ∧
    (step st (.create sender code)).2 =
      [(sender, Msg.roomCreated code Role.white)] ∧
    (∀ c, c ≠ code →
      lookupA c (step st (.create sender code)).1.rooms = lookupA c st.rooms) := by
  refine ⟨?_, ?_, ?_⟩
  · simp [step, hfresh, handleCreate, lookupA_insertA_self]
  · simp [step, hfresh, handleCreate]
  · intro c hc
    simp only [step, hfresh, if_pos rfl, handleCreate]
    exact lookupA_insertA_ne (Ne.symm hc) _ _

/-- C8 witness: creating room `AB12` from the initial state. -/
theorem c8_create_room_witness :
    lookupA "AB12" initState.rooms = none ∧
    lookupA "AB12" (step initState (.create "h" "AB12")).1.rooms =
      some ⟨"h", ["h"], [("h", Role.white)]⟩ ∧
    (step initState (.create "h" "AB12")).2 =
      [("h", Msg.roomCreated "AB12" Role.white)] ∧
    lookupA "ZZ99" (step initState (.create "h" "AB12")).1.rooms =
      lookupA "ZZ99" initState.rooms := by
  have h := c8_create_room initState "h" "AB12" (by decide)
  exact ⟨by decide, h.1, h.2.1, h.2.2 "ZZ99" (by decide)⟩

/-- C4: a join-room whose normalized code names no existing room, or names a
room that already has 2 player entries, emits the `Room unavailable` error to
the requester only and leaves the entire state (registry and channels)
unchanged. -/
theorem c4_join_unavailable (st : ServerState) (sender : ConnId) (v : JsValue)
    (h : lookupA (jsCoerceCode v) st.rooms = none ∨
      ∃ room, lookupA (jsCoerceCode v) st.rooms = some room ∧
        2 ≤ room.players.length) :
    handleJoin st sender v = (st, [(sender, Msg.roomError "Room unavailable")]) := by
  rcases h with h | ⟨room, h, h2⟩
  · simp [handleJoin, h]
  · simp [handleJoin, h, h2]

/-- C4 witness: joining the full demo room with a lowercase code fails and
changes nothing. -/
theorem c4_join_unavailable_witness :
    lookupA "ROOM" demoPair.rooms =
      some ⟨"h", ["h", "g"], [("h", Role.white), ("g", Role.black)]⟩ ∧
    jsCoerceCode (JsValue.str "room") = "ROOM" ∧
    handleJoin demoPair "z" (JsValue.str "room") =
      (demoPair, [("z", Msg.roomError "Room unavailable")]) := by
  refine ⟨by decide, by decide, ?_⟩
  exact c4_join_unavailable demoPair "z" (JsValue.str "room")
    (Or.inr ⟨⟨"h", ["h", "g"], [("h", Role.white), ("g", Role.black)]⟩, by decide, by decide⟩)

/-- C10: the join handler is total over arbitrary scalar payloads.  The code
is coerced by `String(code || "").trim().toUpperCase()` and processed as an
ordinary lookup, so the result is always one of the two defined outcomes: the
`Room unavailable` error with the state untouched, or a successful join at the
coerced code.  In particular a join-room with no payload at all on the initial
state yields the error rather than an exception. -/
theorem c10_join_total_on_any_payload :
    (∀ (st : ServerState) (sender : ConnId) (v : JsValue),
      handleJoin st sender v = (st, [(sender, Msg.roomError "Room unavailable")]) ∨
      ∃ room, lookupA (jsCoerceCode v) st.rooms = some room ∧
        room.players.length < 2 ∧
        handleJoin st sender v =
          (⟨insertA (jsCoerceCode v)
              { room with players := room.players ++ [sender],
                          roles := insertA sender Role.black room.roles } st.rooms,
            channelJoin (jsCoerceCode v) sender st.channels⟩,
           (sender, Msg.roomJoined (jsCoerceCode v) Role.black)
             :: (room.hostId, Msg.opponentJoined (jsCoerceCode v))
             :: broadcastTo
                  ⟨insertA (jsCoerceCode v)
                      { room with players := room.players ++ [sender],
                                  roles := insertA sender Role.black room.roles } st.rooms,
                    channelJoin (jsCoerceCode v) sender st.channels⟩
                  (jsCoerceCode v)
                  (Msg.roomReady (jsCoerceCode v)
                    (insertA sender Role.black room.roles)))) ∧
    handleJoin initState "s" JsValue.undef =
      (initState, [("s", Msg.roomError "Room unavailable")]) := by
  constructor
  · intro st sender v
    cases hl : lookupA (jsCoerceCode v) st.rooms with
    | none => exact Or.inl (by simp [handleJoin, hl])
    | some room =>
      by_cases h2 : 2 ≤ room.players.length
      · exact Or.inl (by simp [handleJoin, hl, h2])
      · refine Or.inr ⟨room, rfl, by omega, ?_⟩
        simp [handleJoin, hl, h2]
  · decide

/-- C5: a swap-sides action from a member of a room that does not have exactly
2 player entries emits the ineligibility error to the requester only — no
other connection receives anything — and leaves the entire state unchanged. -/
theorem c5_swap_ineligible (st : ServerState) (sender : ConnId) (v : JsValue)
    (room : Room) (payload : ActionPayload)
    (hl : lookupA (jsCoerceCode v) st.rooms = some room)
    (hmem : sender ∈ room.players)
    (hlen : room.players.length ≠ 2)
    (hty : payload.type = some "swap-sides") :
    handleAction st sender v payload =
      (st, [(sender, Msg.roomError "Need 2 players to swap sides")]) := by
  have hswap : swapRoomRoles st.rooms (jsCoerceCode v) = none := by
    rcases hp : room.players with _ | ⟨a, _ | ⟨b, _ | ⟨c, tail⟩⟩⟩
    · simp [swapRoomRoles, hl, hp]
    · simp [swapRoomRoles, hl, hp]
    · exact absurd (by rw [hp] ; rfl) hlen
    · simp [swapRoomRoles, hl, hp]
  simp [handleAction, hl, hmem, hty, hswap]

/-- C5 witness: a swap-sides from the sole member of the one-player demo room. -/
theorem c5_swap_ineligible_witness :
    lookupA "SOLO" demoSolo.rooms = some ⟨"h", ["h"], [("h", Role.white)]⟩ ∧
    handleAction demoSolo "h" (JsValue.str "SOLO") ⟨some "swap-sides", ""⟩ =
      (demoSolo, [("h", Msg.roomError "Need 2 players to swap sides")]) := by
  refine ⟨by decide, ?_⟩
  exact c5_swap_ineligible demoSolo "h" (JsValue.str "SOLO")
    ⟨"h", ["h"], [("h", Role.white)]⟩ ⟨some "swap-sides", ""⟩
    (by decide) (by decide) (by decide) rfl

/-- C7: an action whose payload type is not `swap-sides` is forwarded verbatim
to every member of the named room, sender included, when the sender is a
member (the channel membership being the room's players); when the named room
does not exist, or the sender is not a member of it, nothing is emitted to
anyone and the state is unchanged. -/
theorem c7_action_relay (st : ServerState) (sender : ConnId) (v : JsValue)
    (payload : ActionPayload) (hty : payload.type ≠ some "swap-sides") :
    (lookupA (jsCoerceCode v) st.rooms = none →
      handleAction st sender v payload = (st, [])) ∧
    (∀ room, lookupA (jsCoerceCode v) st.rooms = some room →
      sender ∉ room.players → handleAction st sender v payload = (st, [])) ∧
    (∀ room, lookupA (jsCoerceCode v) st.rooms = some room →
      sender ∈ room.players →
      channelMembers st (jsCoerceCode v) = room.players →
      handleAction st sender v payload =
        (st, room.players.map (fun p => (p, Msg.actionMsg payload.type payload.data)))) := by
  refine ⟨?_, ?_, ?_⟩
  · intro h
    simp [handleAction, h]
  · intro room h hnm
    simp [handleAction, h, hnm]
  · intro room h hm hchan
    simp [handleAction, h, hm, hty, broadcastTo, hchan]

/-- C7 witness: a move action in the demo pair room reaches both members, and
the same action from the non-member `z` reaches nobody. -/
theorem c7_action_relay_witness :
    handleAction demoPair "h" (JsValue.str "ROOM") ⟨some "move", "e2e4"⟩ =
      (demoPair, [("h", Msg.actionMsg (some "move") "e2e4"),
                  ("g", Msg.actionMsg (some "move") "e2e4")]) ∧
    handleAction demoPair "z" (JsValue.str "ROOM") ⟨some "move", "e2e4"⟩ =
      (demoPair, []) := by
  have h := c7_action_relay demoPair "h" (JsValue.str "ROOM")
    ⟨some "move", "e2e4"⟩ (by decide)
  have h2 := c7_action_relay demoPair "z" (JsValue.str "ROOM")
    ⟨some "move", "e2e4"⟩ (by decide)
  constructor
  · exact h.2.2 ⟨"h", ["h", "g"], [("h", Role.white), ("g", Role.black)]⟩
      (by decide) (by decide) (by decide)
  · exact h2.2.1 ⟨"h", ["h", "g"], [("h", Role.white), ("g", Role.black)]⟩
      (by decide) (by decide)

/-- C6: disconnect of a room member (`code`/`room` being the room the handler
finds for the socket, the transport channel matching the room's players, and
registry/roles keys without duplicates, as in every normally reached state).
If the member was alone, the room is deleted, nobody is notified, and any
subsequent join of that code fails with `Room unavailable`; if one of two
distinct members disconnects, the remaining member receives exactly one
`opponent-left`, the room persists with that single player, the departed
member's roles entry is gone, and the host is reassigned to the remaining
player when the departed member was host. -/
theorem c6_disconnect (st : ServerState) (sender : ConnId) (code : String)
    (room : Room)
    (hfind : getRoomOfSocket st.rooms sender = some (code, room))
    (hchan : channelMembers st code = room.players)
    (hrnd : (st.rooms.map Prod.fst).Nodup)
    (hnd : (room.roles.map Prod.fst).Nodup)
    (hnorm : jsCoerceCode (JsValue.str code) = code) :
    (room.players = [sender] →
      lookupA code (handleDisconnect st sender).1.rooms = none ∧
      (handleDisconnect st sender).2 = [] ∧
      (∀ j, handleJoin (handleDisconnect st sender).1 j (JsValue.str code) =
        ((handleDisconnect st sender).1,
         [(j, Msg.roomError "Room unavailable")]))) ∧
    (∀ x, x ≠ sender → (room.players = [sender, x] ∨ room.players = [x, sender]) →
      lookupA code (handleDisconnect st sender).1.rooms =
        some ⟨if room.hostId = sender then x else room.hostId, [x],
              eraseA sender room.roles⟩ ∧
      lookupA sender (eraseA sender room.roles) = none ∧
      (handleDisconnect st sender).2 = [(x, Msg.opponentLeft code)]) := by
  have hchd : (lookupA code st.channels).getD [] = room.players := hchan
  constructor
  · intro hp
    have hfilter : room.players.filter (· ≠ sender) = [] := by
      simp [hp]
    have hstate : handleDisconnect st sender =
        (⟨eraseA code st.rooms,
          st.channels.map (fun cm => (cm.1, cm.2.filter (· ≠ sender)))⟩, []) := by
      simp only [handleDisconnect, hfind]
      rw [lookupA_filter_channels, hchd, hfilter]
      simp
    refine ⟨?_, ?_, ?_⟩
    · rw [hstate]
      exact lookupA_eraseA_self hrnd
    · rw [hstate]
    · intro j
      rw [hstate]
      simp [handleJoin, hnorm, lookupA_eraseA_self hrnd]
  · intro x hx hp
    have hfilter : room.players.filter (· ≠ sender) = [x] := by
      rcases hp with hp | hp <;> simp [hp, hx]
    have hstate : handleDisconnect st sender =
        (⟨insertA code
            ⟨if room.hostId = sender then x else room.hostId, [x],
             eraseA sender room.roles⟩ st.rooms,
          st.channels.map (fun cm => (cm.1, cm.2.filter (· ≠ sender)))⟩,
         [(x, Msg.opponentLeft code)]) := by
      simp only [handleDisconnect, hfind]
      rw [lookupA_filter_channels, hchd, hfilter]
      simp
    refine ⟨?_, lookupA_eraseA_self hnd, ?_⟩
    · rw [hstate]
      exact lookupA_insertA_self _ _ _
    · rw [hstate]

/-- C6 witness: in the demo pair room, the host `h` disconnecting leaves `g`
alone as the new host with exactly one `opponent-left`; `g` then disconnecting
deletes the room and a re-join of its code fails. -/
theorem c6_disconnect_witness :
    (handleDisconnect demoPair "h").2 = [("g", Msg.opponentLeft "ROOM")] ∧
    lookupA "ROOM" (handleDisconnect demoPair "h").1.rooms =
      some ⟨"g", ["g"], [("g", Role.black)]⟩ ∧
    lookupA "SOLO" (handleDisconnect demoSolo "h").1.rooms = none ∧
    (handleDisconnect demoSolo "h").2 = [] ∧
    handleJoin (handleDisconnect demoSolo "h").1 "j" (JsValue.str "SOLO") =
      ((handleDisconnect demoSolo "h").1,
       [("j", Msg.roomError "Room unavailable")]) := by
  have h2 := c6_disconnect demoPair "h" "ROOM"
    ⟨"h", ["h", "g"], [("h", Role.white), ("g", Role.black)]⟩
    (by decide) (by decide) (by decide) (by decide) (by decide)
  have h1 := c6_disconnect demoSolo "h" "SOLO" ⟨"h", ["h"], [("h", Role.white)]⟩
    (by decide) (by decide) (by decide) (by decide) (by decide)
  have hb := h2.2 "g" (by decide) (Or.inl rfl)
  have ha := h1.1 rfl
  exact ⟨hb.2.2, by simpa using hb.1, ha.1, ha.2.1, ha.2.2 "j"⟩

/-- C2: a swap-sides action from a member of a room with exactly 2 distinct
players flips both players' role values (each white becomes black and vice
versa), both members receive the `roles-updated` broadcast followed by the
restart action broadcast, and a second consecutive swap-sides restores the
room — roles mapping included — exactly. -/
theorem c2_swap_sides (st : ServerState) (sender a b : ConnId) (v : JsValue)
    (code : String) (room : Room) (ra rb : Role) (data : String)
    (hcode : jsCoerceCode v = code)
    (hl : lookupA code st.rooms = some room)
    (hp : room.players = [a, b])
    (hab : a ≠ b)
    (hra : lookupA a room.roles = some ra)
    (hrb : lookupA b room.roles = some rb)
    (hchan : channelMembers st code = [a, b])
    (hmem : sender = a ∨ sender = b) :
    lookupA code (handleAction st sender v ⟨some "swap-sides", data⟩).1.rooms =
      some { room with roles := flipAt (flipAt room.roles a) b } ∧
    lookupA a (flipAt (flipAt room.roles a) b) = some (flipRole ra) ∧
    lookupA b (flipAt (flipAt room.roles a) b) = some (flipRole rb) ∧
    (handleAction st sender v ⟨some "swap-sides", data⟩).2 =
      [(a, Msg.rolesUpdated code (flipAt (flipAt room.roles a) b)),
       (b, Msg.rolesUpdated code (flipAt (flipAt room.roles a) b)),
       (a, Msg.actionMsg (some "restart") ""),
       (b, Msg.actionMsg (some "restart") "")] ∧
    lookupA code (handleAction
        (handleAction st sender v ⟨some "swap-sides", data⟩).1
        sender v ⟨some "swap-sides", data⟩).1.rooms = some room := by
  subst hcode
  obtain ⟨host, ps, roles⟩ := room
  simp only at hp hra hrb hl ⊢
  subst hp
  have hmem' : sender ∈ [a, b] := by
    rcases hmem with rfl | rfl <;> simp
  have hchd : (lookupA (jsCoerceCode v) st.channels).getD [] = [a, b] := hchan
  have e1 : flipAt roles a = insertA a (flipRole ra) roles :=
    flipAt_eq_insert _ _ _ hra
  have l1b : lookupA b (flipAt roles a) = some rb := by
    rw [e1, lookupA_insertA_ne hab]
    exact hrb
  have e2 : flipAt (flipAt roles a) b =
      insertA b (flipRole rb) (flipAt roles a) :=
    flipAt_eq_insert _ _ _ l1b
  have l2a : lookupA a (flipAt (flipAt roles a) b) = some (flipRole ra) := by
    rw [e2, lookupA_insertA_ne (Ne.symm hab), e1]
    exact lookupA_insertA_self _ _ _
  have l2b : lookupA b (flipAt (flipAt roles a) b) = some (flipRole rb) := by
    rw [e2]
    exact lookupA_insertA_self _ _ _
  have hswap1 : swapRoomRoles st.rooms (jsCoerceCode v) =
      some (insertA (jsCoerceCode v)
              ⟨host, [a, b], flipAt (flipAt roles a) b⟩ st.rooms,
            flipAt (flipAt roles a) b) := by
    simp only [swapRoomRoles, hl]
  have hact1 : handleAction st sender v ⟨some "swap-sides", data⟩ =
      (⟨insertA (jsCoerceCode v)
          ⟨host, [a, b], flipAt (flipAt roles a) b⟩ st.rooms,
        st.channels⟩,
       [(a, Msg.rolesUpdated (jsCoerceCode v) (flipAt (flipAt roles a) b)),
        (b, Msg.rolesUpdated (jsCoerceCode v) (flipAt (flipAt roles a) b)),
        (a, Msg.actionMsg (some "restart") ""),
        (b, Msg.actionMsg (some "restart") "")]) := by
    simp only [handleAction, hl, hmem', if_true, hswap1, broadcastTo,
      channelMembers, hchd]
    simp
  have hl2 : lookupA (jsCoerceCode v)
      (insertA (jsCoerceCode v)
        ⟨host, [a, b], flipAt (flipAt roles a) b⟩ st.rooms) =
      some ⟨host, [a, b], flipAt (flipAt roles a) b⟩ :=
    lookupA_insertA_self _ _ _
  have hroles4 : flipAt (flipAt (flipAt (flipAt roles a) b) a) b = roles :=
    double_swap_roles roles a b ra rb hab hra hrb
  have hswap2 : swapRoomRoles
      (insertA (jsCoerceCode v)
        ⟨host, [a, b], flipAt (flipAt roles a) b⟩ st.rooms)
      (jsCoerceCode v) =
      some (insertA (jsCoerceCode v) ⟨host, [a, b], roles⟩
              (insertA (jsCoerceCode v)
                ⟨host, [a, b], flipAt (flipAt roles a) b⟩ st.rooms),
            roles) := by
    simp only [swapRoomRoles, hl2]
    rw [hroles4]
  refine ⟨?_, l2a, l2b, ?_, ?_⟩
  · rw [hact1]
    exact lookupA_insertA_self _ _ _
  · rw [hact1]
  · rw [hact1]
    simp only [handleAction, hl2, hmem', if_true, hswap2]
    simp only [lookupA_insertA_self]

/-- C2 witness: swapping sides in the demo pair room turns `{h: white,
g: black}` into `{h: black, g: white}`, and swapping again restores the room. -/
theorem c2_swap_sides_witness :
    lookupA "ROOM"
      (handleAction demoPair "h" (JsValue.str "ROOM")
        ⟨some "swap-sides", ""⟩).1.rooms =
      some ⟨"h", ["h", "g"],
            flipAt (flipAt [("h", Role.white), ("g", Role.black)] "h") "g"⟩ ∧
    lookupA "ROOM"
      (handleAction
        (handleAction demoPair "h" (JsValue.str "ROOM")
          ⟨some "swap-sides", ""⟩).1
        "h" (JsValue.str "ROOM") ⟨some "swap-sides", ""⟩).1.rooms =
      some ⟨"h", ["h", "g"], [("h", Role.white), ("g", Role.black)]⟩ := by
  have h := c2_swap_sides demoPair "h" "h" "g" (JsValue.str "ROOM") "ROOM"
    ⟨"h", ["h", "g"], [("h", Role.white), ("g", Role.black)]⟩
    Role.white Role.black ""
    (by decide) (by decide) rfl (by decide) rfl rfl (by decide) (Or.inl rfl)
  exact ⟨h.1, h.2.2.2.2⟩

end ChessTacToe
